import Mathlib

/-!
Shallow embedding of the drake_tutorial repository: the notebook cells of
`mathematical_program_and_traj_opt_examples.ipynb` (small LP/QP/NLP examples
built on a MathematicalProgram builder) and `drake_MP_tutorial.ipynb`
(plant construction, forward kinematics, inverse-kinematics problem setup).
The pydrake library itself is an external collaborator; its contracts
(plant/context semantics, the generic optimization solver) are modelled from
the specification, while the notebook glue code is translated directly from
the source cells.
-/

namespace DrakeTutorial

/-- A mathematical program over `n` continuous decision variables: a mutable
collection of cost terms, constraint terms, and an optional initial guess,
built incrementally (embeds pydrake's `MathematicalProgram`; the decision
variables created by `NewContinuousVariables(n)` are the index space `Fin n`). -/
structure MathematicalProgram (n : ℕ) where
  costs : List ((Fin n → ℝ) → ℝ)
  constraints : List ((Fin n → ℝ) → Prop)
  initialGuess : Option (Fin n → ℝ)

/-- Embeds `mp = MathematicalProgram()`: an empty program. -/
def MathematicalProgram.init (n : ℕ) : MathematicalProgram n :=
  ⟨[], [], Option.none⟩

/-- Embeds `mp.AddLinearCost(e)`: appends a cost term. -/
def MathematicalProgram.AddLinearCost {n : ℕ} (mp : MathematicalProgram n)
    (c : (Fin n → ℝ) → ℝ) : MathematicalProgram n :=
  ⟨mp.costs ++ [c], mp.constraints, mp.initialGuess⟩

/-- Embeds `mp.AddQuadraticCost(e)`: appends a cost term. -/
def MathematicalProgram.AddQuadraticCost {n : ℕ} (mp : MathematicalProgram n)
    (c : (Fin n → ℝ) → ℝ) : MathematicalProgram n :=
  ⟨mp.costs ++ [c], mp.constraints, mp.initialGuess⟩

/-- Embeds `mp.AddLinearConstraint(formula)`: appends a constraint term. -/
def MathematicalProgram.AddLinearConstraint {n : ℕ} (mp : MathematicalProgram n)
    (c : (Fin n → ℝ) → Prop) : MathematicalProgram n :=
  ⟨mp.costs, mp.constraints ++ [c], mp.initialGuess⟩

/-- Embeds `mp.AddConstraint(formula)` for a general symbolic formula. -/
def MathematicalProgram.AddConstraint {n : ℕ} (mp : MathematicalProgram n)
    (c : (Fin n → ℝ) → Prop) : MathematicalProgram n :=
  ⟨mp.costs, mp.constraints ++ [c], mp.initialGuess⟩

/-- Embeds `mp.SetInitialGuessForAllVariables(g)`. -/
def MathematicalProgram.SetInitialGuessForAllVariables {n : ℕ}
    (mp : MathematicalProgram n) (g : Fin n → ℝ) : MathematicalProgram n :=
  ⟨mp.costs, mp.constraints, Option.some g⟩

/-- Total objective of a program at a point: the sum of its cost terms. -/
def totalCost {n : ℕ} (mp : MathematicalProgram n) (x : Fin n → ℝ) : ℝ :=
  (mp.costs.map (fun c => c x)).sum

/-- A point is feasible when it satisfies every constraint term. -/
def Feasible {n : ℕ} (mp : MathematicalProgram n) (x : Fin n → ℝ) : Prop :=
  ∀ c ∈ mp.constraints, c x

/-- A global optimum: a feasible point whose total cost is minimal among all
feasible points. -/
def IsGlobalOptimum {n : ℕ} (mp : MathematicalProgram n) (x : Fin n → ℝ) : Prop :=
  Feasible mp x ∧ ∀ y, Feasible mp y → totalCost mp x ≤ totalCost mp y

/-- Modelled from the spec: the result object the external Generic
Optimization Solver returns — success flag, solution vector matching the
decision-variable count, and the solver identity (spec section 6, "Solver
result object"). -/
structure SolverResult (n : ℕ) where
  is_success : Bool
  solution : Fin n → ℝ
  solver_name : String

/-- Modelled from the spec: the contract of the external Generic Optimization
Solver (spec section 4.4 together with the exact-solution test properties of
section 8). The solver reports `success = true` exactly when the program has a
global optimum, and in that case the returned solution vector is such an
optimum; non-convergence and unboundedness are surfaced as `success = false`
rather than by raising. -/
def SolveBehaves {n : ℕ} (mp : MathematicalProgram n) (res : SolverResult n) : Prop :=
  (res.is_success = true ↔ ∃ x, IsGlobalOptimum mp x) ∧
  (res.is_success = true → IsGlobalOptimum mp res.solution)

/-- Embeds the notebook cell `mp.AddLinearCost(x[0]*1.0)`,
`mp.AddLinearConstraint(x[0] >= 1)` — the LP `min x  s.t.  x ≥ 1`. -/
def lp_prog : MathematicalProgram 1 :=
  ((MathematicalProgram.init 1).AddLinearCost (fun x => x 0 * 1.0)).AddLinearConstraint
    (fun x => x 0 ≥ 1)

/-- Embeds the IPOPT cell, which builds the identical program
(`AddLinearCost(x[0]*1.0)`, `AddLinearConstraint(x[0] >= 1)`) and hands it to
an explicitly constructed `IpoptSolver`. -/
def lp_prog_ipopt : MathematicalProgram 1 :=
  ((MathematicalProgram.init 1).AddLinearCost (fun x => x 0 * 1.0)).AddLinearConstraint
    (fun x => x 0 ≥ 1)

/-- Embeds the cell `mp.AddLinearCost(x[0]*1.0)` with no constraints — an
unbounded LP. -/
def lp_unconstrained : MathematicalProgram 1 :=
  (MathematicalProgram.init 1).AddLinearCost (fun x => x 0 * 1.0)

/-- Embeds the cell `mp.AddLinearCost(x[0]*1.0)`,
`mp.AddLinearConstraint(x[0] <= 1)` — still unbounded below. -/
def lp_upper_bounded : MathematicalProgram 1 :=
  ((MathematicalProgram.init 1).AddLinearCost (fun x => x 0 * 1.0)).AddLinearConstraint
    (fun x => x 0 ≤ 1)

/-- Embeds the cell `mp.AddQuadraticCost((x[0]-3)**2)` with no constraints. -/
def qp_prog : MathematicalProgram 1 :=
  (MathematicalProgram.init 1).AddQuadraticCost (fun x => (x 0 - 3) ^ 2)

/-- Embeds the cell `mp.AddConstraint((x[0]**2 + x[1]**2) == 1.0)`,
`mp.AddLinearCost(x.sum())`,
`mp.SetInitialGuessForAllVariables(np.array([-0.5,-0.5]))`. -/
def circle_prog : MathematicalProgram 2 :=
  (((MathematicalProgram.init 2).AddConstraint
      (fun x => x 0 ^ 2 + x 1 ^ 2 = 1.0)).AddLinearCost
    (fun x => x 0 + x 1)).SetInitialGuessForAllVariables (fun i => if i = 0 then -0.5 else -0.5)

/-- Modelled from the spec: the error kinds of section 7 that the kinematics
layer can surface. -/
inductive KinError where
  | LoadError
  | ConfigurationError
  | DimensionError
deriving DecidableEq

/-- Modelled from the spec: the kinematic-chain description read from the
robot description file `iiwa14_simplified_collision.urdf` (the file itself is
not among the sources): a degree-of-freedom count, the degrees of freedom the
base link has relative to the world frame before welding, and the
end-effector pose map realised by the chain of links and joints, consumed
opaquely. -/
structure RobotDescription where
  dof : ℕ
  freeBaseDofs : ℕ
  relTransform : (Fin dof → ℝ) → Matrix (Fin 4) (Fin 4) ℝ

/-- Embeds pydrake's `MultibodyPlant` as the notebook uses it: the loaded
robot description plus the weld and finalize state. -/
structure MultibodyPlant where
  desc : RobotDescription
  baseWelded : Bool
  finalized : Bool

/-- An empty description, before any model file is added. -/
def emptyDescription : RobotDescription :=
  ⟨0, 0, fun _ => 1⟩

/-- Embeds `plant = MultibodyPlant()`. -/
def MultibodyPlant.init : MultibodyPlant :=
  ⟨emptyDescription, false, false⟩

/-- Embeds `Parser(plant).AddModelFromFile(path_to_urdf)`: installs the
parsed description. -/
def MultibodyPlant.AddModelFromFile (p : MultibodyPlant) (d : RobotDescription) :
    MultibodyPlant :=
  ⟨d, p.baseWelded, p.finalized⟩

/-- Embeds `plant.WeldFrames(A=world_frame, B=base)`: fixes the base to the
world frame, removing its degrees of freedom. -/
def MultibodyPlant.WeldFrames (p : MultibodyPlant) : MultibodyPlant :=
  ⟨p.desc, true, p.finalized⟩

/-- Embeds `plant.Finalize()`. -/
def MultibodyPlant.Finalize (p : MultibodyPlant) : MultibodyPlant :=
  ⟨p.desc, p.baseWelded, true⟩

/-- Degrees of freedom the base has relative to the world frame: zero once
welded (spec glossary: welding removes the joint's degrees of freedom). -/
def MultibodyPlant.baseDofs (p : MultibodyPlant) : ℕ :=
  if p.baseWelded then 0 else p.desc.freeBaseDofs

/-- Number of positions of the plant — the length a configuration vector
must have. -/
def MultibodyPlant.numPositions (p : MultibodyPlant) : ℕ :=
  p.desc.dof

/-- Modelled from the spec: a plant context holding the configuration vector,
one real joint position per degree of freedom. -/
structure Context (n : ℕ) where
  positions : Fin n → ℝ

/-- Embeds `plant.CreateDefaultContext()`: all joint positions zero. -/
def MultibodyPlant.CreateDefaultContext (p : MultibodyPlant) : Context p.numPositions :=
  ⟨fun _ => 0⟩

/-- Modelled from the spec: `plant.SetPositions(context, q)` stores the
configuration, failing with `DimensionError` when the vector length does not
match the degree-of-freedom count (spec section 4.2). -/
def MultibodyPlant.SetPositions (p : MultibodyPlant) (_ : Context p.numPositions)
    (q : List ℝ) : Except KinError (Context p.numPositions) :=
  if h : q.length = p.numPositions then
    Except.ok ⟨fun i => q.get ⟨i, by rw [h]; exact i.isLt⟩⟩
  else
    Except.error KinError.DimensionError

/-- Embeds `plant.CalcRelativeTransform(context, world_frame, ee_frame)`: the
end-effector pose the (opaque) chain realises at the stored configuration,
as a 4×4 homogeneous transform. -/
def MultibodyPlant.CalcRelativeTransform (p : MultibodyPlant)
    (c : Context p.numPositions) : Matrix (Fin 4) (Fin 4) ℝ :=
  p.desc.relTransform c.positions

/-- Embeds the notebook function `compute_forward_kinematics(plant, q)`: a
fresh default context, `SetPositions`, `CalcRelativeTransform`, returning
`T_W_EE.matrix()`. The plant the call leaves behind is returned alongside the
result so that mutation (or its absence) is recorded explicitly. -/
def compute_forward_kinematics (plant : MultibodyPlant) (q : List ℝ) :
    Except KinError (Matrix (Fin 4) (Fin 4) ℝ) × MultibodyPlant :=
  let context := plant.CreateDefaultContext
  (match plant.SetPositions context q with
    | Except.error e => Except.error e
    | Except.ok c => Except.ok (plant.CalcRelativeTransform c),
   plant)

/-- Translation component of the forward-kinematics output at `q`: the first
three entries of the last column of the transform (`T_W_E[:3, 3]`). -/
def fkTranslation (plant : MultibodyPlant) (q : Fin plant.numPositions → ℝ) :
    Fin 3 → ℝ :=
  fun i => plant.CalcRelativeTransform ⟨q⟩ i.castSucc (Fin.last 3)

/-- World-frame position of a body-frame query point `p_BQ` of the
end-effector frame at configuration `q`: the rotation block applied to the
point, plus the translation, read off the homogeneous transform. -/
def worldPoint (plant : MultibodyPlant) (q : Fin plant.numPositions → ℝ)
    (p_BQ : Fin 3 → ℝ) : Fin 3 → ℝ :=
  fun i =>
    (∑ j : Fin 3, plant.CalcRelativeTransform ⟨q⟩ i.castSucc j.castSucc * p_BQ j) +
      plant.CalcRelativeTransform ⟨q⟩ i.castSucc (Fin.last 3)

/-- A position constraint as passed to `ik.AddPositionConstraint`: the
body-frame query point `p_BQ` on frame B (the end-effector frame) and
componentwise bounds on its position in frame A (the world frame). -/
structure PositionConstraint where
  p_BQ : Fin 3 → ℝ
  p_AQ_lower : Fin 3 → ℝ
  p_AQ_upper : Fin 3 → ℝ

/-- Embeds `ik = InverseKinematics(plant)` together with the position
constraints added to it; the decision variables `ik.q()` are the plant's
joint angles, indexed by `Fin plant.numPositions`. -/
structure InverseKinematics where
  plant : MultibodyPlant
  posConstraints : List PositionConstraint

/-- Embeds `InverseKinematics(plant)`: no constraints yet. -/
def InverseKinematics.init (plant : MultibodyPlant) : InverseKinematics :=
  ⟨plant, []⟩

/-- Embeds `ik.AddPositionConstraint(frameB=F, p_BQ=..., frameA=W,
p_AQ_lower=..., p_AQ_upper=...)`. -/
def InverseKinematics.AddPositionConstraint (ik : InverseKinematics)
    (pc : PositionConstraint) : InverseKinematics :=
  ⟨ik.plant, ik.posConstraints ++ [pc]⟩

/-- Modelled from the spec: what a position constraint requires of a
configuration — the world-frame position of the query point lies within the
box `[p_AQ_lower, p_AQ_upper]` componentwise (spec section 4.3). -/
def PositionConstraintHolds (plant : MultibodyPlant) (pc : PositionConstraint)
    (q : Fin plant.numPositions → ℝ) : Prop :=
  ∀ i : Fin 3, pc.p_AQ_lower i ≤ worldPoint plant q pc.p_BQ i ∧
    worldPoint plant q pc.p_BQ i ≤ pc.p_AQ_upper i

/-- Embeds `mp = ik.prog()`: the underlying mathematical program — no cost
terms, one constraint term per added position constraint, over the joint
angles. -/
def InverseKinematics.prog (ik : InverseKinematics) :
    MathematicalProgram ik.plant.numPositions :=
  ⟨[], ik.posConstraints.map (fun pc q => PositionConstraintHolds ik.plant pc q),
    Option.none⟩

/-- Embeds the plant-construction cell: `MultibodyPlant()`,
`Parser(plant).AddModelFromFile(path_to_urdf)`,
`plant.WeldFrames(world_frame, base)`, `plant.Finalize()`. -/
def setup_plant (d : RobotDescription) : MultibodyPlant :=
  ((MultibodyPlant.init.AddModelFromFile d).WeldFrames).Finalize

/-- Embeds the IK-setup cell, with the cell's target `p_WF = T_W_E[:3, 3]`
and tolerance `pos_tol` generalized to parameters (the IK problem builder of
spec section 4.3): one position constraint with `p_BQ = np.zeros(3)` and
bounds `p_WF - pos_tol`, `p_WF + pos_tol`. -/
def build_ik_problem (plant : MultibodyPlant) (target : Fin 3 → ℝ) (pos_tol : ℝ) :
    InverseKinematics :=
  (InverseKinematics.init plant).AddPositionConstraint
    ⟨fun _ => 0, fun i => target i - pos_tol, fun i => target i + pos_tol⟩

/-- A concrete seven-joint description standing in for the parsed URDF in
witness instantiations: the end-effector pose is the identity rotation
translated by the second joint angle along each axis. -/
def demoDescription : RobotDescription :=
  ⟨7, 6, fun q => Matrix.of fun i j =>
    if i = j then 1 else if j = Fin.last 3 then q 1 else 0⟩

/-- The plant the construction cell produces from the demo description. -/
def demoPlant : MultibodyPlant :=
  setup_plant demoDescription

end DrakeTutorial

namespace DrakeTutorial

theorem lp_prog_costs : lp_prog.costs = [fun x => x 0 * 1.0] := rfl

theorem lp_prog_constraints : lp_prog.constraints = [fun x => x 0 ≥ 1] := rfl

theorem lp_prog_totalCost (x : Fin 1 → ℝ) : totalCost lp_prog x = x 0 * 1.0 := by
  simp [totalCost, lp_prog_costs]

theorem lp_prog_feasible_iff (x : Fin 1 → ℝ) : Feasible lp_prog x ↔ x 0 ≥ 1 := by
  constructor
  · intro h
    exact h (fun x => x 0 ≥ 1) (by rw [lp_prog_constraints]; exact List.mem_singleton.mpr rfl)
  · intro h c hc
    rw [lp_prog_constraints, List.mem_singleton] at hc
    subst hc
    exact h

theorem lp_prog_optimum : IsGlobalOptimum lp_prog (fun _ => 1) := by
  constructor
  · rw [lp_prog_feasible_iff]
  · intro y hy
    rw [lp_prog_feasible_iff] at hy
    rw [lp_prog_totalCost, lp_prog_totalCost]
    have : (1 : ℝ) * 1.0 ≤ y 0 * 1.0 := by linarith
    exact this

theorem lp_prog_optimum_unique (x : Fin 1 → ℝ) (h : IsGlobalOptimum lp_prog x) :
    x = fun _ => 1 := by
  obtain ⟨hfeas, hmin⟩ := h
  rw [lp_prog_feasible_iff] at hfeas
  have h1 := hmin (fun _ => 1) (by rw [lp_prog_feasible_iff])
  rw [lp_prog_totalCost, lp_prog_totalCost] at h1
  have h2 : x 0 * 1.0 ≤ (1 : ℝ) * 1.0 := h1
  funext i
  have hi : i = 0 := Subsingleton.elim i 0
  subst hi
  have hx : x 0 ≤ 1 := by linarith
  linarith [hfeas]

/-- C3: solving the program with linear cost `x` and linear constraint `x ≥ 1`
returns a result with success flag true and solution vector exactly `x = 1`. -/
theorem lp_prog_solved (res : SolverResult 1) (h : SolveBehaves lp_prog res) :
    res.is_success = true ∧ res.solution = fun _ => 1 := by
  obtain ⟨hiff, hsound⟩ := h
  have hsucc : res.is_success = true := hiff.mpr ⟨_, lp_prog_optimum⟩
  exact ⟨hsucc, lp_prog_optimum_unique _ (hsound hsucc)⟩

/-- Witness for C3 at the concrete result recorded in the notebook output
(`success: True`, solver `SNOPT/f2c`, solution `[1.]`). -/
theorem lp_prog_solved_witness :
    (SolverResult.mk true (fun _ => 1) "SNOPT/f2c" : SolverResult 1).is_success = true ∧
      (SolverResult.mk true (fun _ => 1) "SNOPT/f2c" : SolverResult 1).solution = fun _ => 1 :=
  lp_prog_solved ⟨true, fun _ => 1, "SNOPT/f2c"⟩
    ⟨⟨fun _ => ⟨_, lp_prog_optimum⟩, fun _ => rfl⟩, fun _ => lp_prog_optimum⟩

theorem lp_unconstrained_feasible (x : Fin 1 → ℝ) : Feasible lp_unconstrained x := by
  intro c hc
  have h : lp_unconstrained.constraints = [] := rfl
  rw [h] at hc
  cases hc

theorem lp_unconstrained_costs : lp_unconstrained.costs = [fun x => x 0 * 1.0] := rfl

theorem lp_unconstrained_totalCost (x : Fin 1 → ℝ) :
    totalCost lp_unconstrained x = x 0 * 1.0 := by
  simp [totalCost, lp_unconstrained_costs]

theorem lp_unconstrained_no_optimum : ¬ ∃ x, IsGlobalOptimum lp_unconstrained x := by
  rintro ⟨x, _, hmin⟩
  have h := hmin (fun _ => x 0 - 1) (lp_unconstrained_feasible _)
  rw [lp_unconstrained_totalCost, lp_unconstrained_totalCost] at h
  have h2 : x 0 * 1.0 ≤ (x 0 - 1) * 1.0 := h
  linarith

theorem lp_upper_bounded_feasible_iff (x : Fin 1 → ℝ) :
    Feasible lp_upper_bounded x ↔ x 0 ≤ 1 := by
  have h : lp_upper_bounded.constraints = [fun x => x 0 ≤ 1] := rfl
  constructor
  · intro hf
    exact hf (fun x => x 0 ≤ 1) (by rw [h]; exact List.mem_singleton.mpr rfl)
  · intro hx c hc
    rw [h, List.mem_singleton] at hc
    subst hc
    exact hx

theorem lp_upper_bounded_costs : lp_upper_bounded.costs = [fun x => x 0 * 1.0] := rfl

theorem lp_upper_bounded_totalCost (x : Fin 1 → ℝ) :
    totalCost lp_upper_bounded x = x 0 * 1.0 := by
  simp [totalCost, lp_upper_bounded_costs]

theorem lp_upper_bounded_no_optimum : ¬ ∃ x, IsGlobalOptimum lp_upper_bounded x := by
  rintro ⟨x, hfeas, hmin⟩
  rw [lp_upper_bounded_feasible_iff] at hfeas
  have h := hmin (fun _ => x 0 - 1)
    (by rw [lp_upper_bounded_feasible_iff]; show x 0 - 1 ≤ 1; linarith)
  rw [lp_upper_bounded_totalCost, lp_upper_bounded_totalCost] at h
  have h2 : x 0 * 1.0 ≤ (x 0 - 1) * 1.0 := h
  linarith

/-- C4: solving a program with a nonzero linear cost and no constraints (and
likewise with only the upper bound `x ≤ 1`) yields `success = false`
(unbounded objective) rather than a meaningful solution; the caller must
check the flag. -/
theorem unbounded_lp_reports_failure (res res' : SolverResult 1)
    (h : SolveBehaves lp_unconstrained res) (h' : SolveBehaves lp_upper_bounded res') :
    res.is_success = false ∧ res'.is_success = false := by
  constructor
  · rcases Bool.eq_false_or_eq_true res.is_success with hb | hb
    · exact absurd (h.1.mp hb) lp_unconstrained_no_optimum
    · exact hb
  · rcases Bool.eq_false_or_eq_true res'.is_success with hb | hb
    · exact absurd (h'.1.mp hb) lp_upper_bounded_no_optimum
    · exact hb

/-- Witness for C4 at the concrete failed results recorded in the notebook
outputs (`False`, `[nan]` and `False`, `[-6.17673396e+14]`). -/
theorem unbounded_lp_reports_failure_witness :
    (SolverResult.mk false (fun _ => 0) "SNOPT/f2c" : SolverResult 1).is_success = false ∧
      (SolverResult.mk false (fun _ => -617673396000000) "SNOPT/f2c" :
        SolverResult 1).is_success = false :=
  unbounded_lp_reports_failure ⟨false, fun _ => 0, "SNOPT/f2c"⟩
    ⟨false, fun _ => -617673396000000, "SNOPT/f2c"⟩
    ⟨⟨fun hb => (nomatch hb), fun hex => absurd hex lp_unconstrained_no_optimum⟩,
      fun hb => (nomatch hb)⟩
    ⟨⟨fun hb => (nomatch hb), fun hex => absurd hex lp_upper_bounded_no_optimum⟩,
      fun hb => (nomatch hb)⟩

theorem qp_prog_feasible (x : Fin 1 → ℝ) : Feasible qp_prog x := by
  intro c hc
  have h : qp_prog.constraints = [] := rfl
  rw [h] at hc
  cases hc

theorem qp_prog_costs : qp_prog.costs = [fun x => (x 0 - 3) ^ 2] := rfl

theorem qp_prog_totalCost (x : Fin 1 → ℝ) : totalCost qp_prog x = (x 0 - 3) ^ 2 := by
  simp [totalCost, qp_prog_costs]

theorem qp_prog_optimum : IsGlobalOptimum qp_prog (fun _ => 3) := by
  refine ⟨qp_prog_feasible _, fun y _ => ?_⟩
  rw [qp_prog_totalCost, qp_prog_totalCost]
  have : ((3 : ℝ) - 3) ^ 2 ≤ (y 0 - 3) ^ 2 := by
    simpa using sq_nonneg (y 0 - 3)
  exact this

theorem qp_prog_optimum_unique (x : Fin 1 → ℝ) (h : IsGlobalOptimum qp_prog x) :
    x = fun _ => 3 := by
  obtain ⟨_, hmin⟩ := h
  have h1 := hmin (fun _ => 3) (qp_prog_feasible _)
  rw [qp_prog_totalCost, qp_prog_totalCost] at h1
  have h2 : (x 0 - 3) ^ 2 ≤ ((3 : ℝ) - 3) ^ 2 := h1
  have h3 : (x 0 - 3) ^ 2 = 0 := le_antisymm (by linarith [h2]) (sq_nonneg _)
  have h4 : x 0 - 3 = 0 := by
    exact sq_eq_zero_iff.mp h3
  funext i
  have hi : i = 0 := Subsingleton.elim i 0
  subst hi
  linarith

/-- C5: solving the program with quadratic cost `(x - 3)^2` and no constraints
returns `success = true` and solution exactly `x = 3`. -/
theorem qp_prog_solved (res : SolverResult 1) (h : SolveBehaves qp_prog res) :
    res.is_success = true ∧ res.solution = fun _ => 3 := by
  obtain ⟨hiff, hsound⟩ := h
  have hsucc : res.is_success = true := hiff.mpr ⟨_, qp_prog_optimum⟩
  exact ⟨hsucc, qp_prog_optimum_unique _ (hsound hsucc)⟩

/-- Witness for C5 at the result an exact solver returns for this QP. -/
theorem qp_prog_solved_witness :
    (SolverResult.mk true (fun _ => 3) "SNOPT/f2c" : SolverResult 1).is_success = true ∧
      (SolverResult.mk true (fun _ => 3) "SNOPT/f2c" : SolverResult 1).solution = fun _ => 3 :=
  qp_prog_solved ⟨true, fun _ => 3, "SNOPT/f2c"⟩
    ⟨⟨fun _ => ⟨_, qp_prog_optimum⟩, fun _ => rfl⟩, fun _ => qp_prog_optimum⟩

theorem circle_prog_costs : circle_prog.costs = [fun x => x 0 + x 1] := rfl

theorem circle_prog_constraints :
    circle_prog.constraints = [fun x => x 0 ^ 2 + x 1 ^ 2 = 1.0] := rfl

theorem circle_totalCost (x : Fin 2 → ℝ) : totalCost circle_prog x = x 0 + x 1 := by
  simp [totalCost, circle_prog_costs]

theorem circle_feasible_iff (x : Fin 2 → ℝ) :
    Feasible circle_prog x ↔ x 0 ^ 2 + x 1 ^ 2 = 1.0 := by
  constructor
  · intro hf
    exact hf (fun x => x 0 ^ 2 + x 1 ^ 2 = 1.0)
      (by rw [circle_prog_constraints]; exact List.mem_singleton.mpr rfl)
  · intro hx c hc
    rw [circle_prog_constraints, List.mem_singleton] at hc
    subst hc
    exact hx

theorem circle_optimum : IsGlobalOptimum circle_prog (fun _ => -(Real.sqrt 2) / 2) := by
  have hs : Real.sqrt 2 ^ 2 = 2 := Real.sq_sqrt (by norm_num)
  constructor
  · rw [circle_feasible_iff]
    show (-(Real.sqrt 2) / 2) ^ 2 + (-(Real.sqrt 2) / 2) ^ 2 = 1.0
    nlinarith [hs]
  · intro y hy
    rw [circle_feasible_iff] at hy
    rw [circle_totalCost, circle_totalCost]
    show -(Real.sqrt 2) / 2 + -(Real.sqrt 2) / 2 ≤ y 0 + y 1
    nlinarith [sq_nonneg (y 0 - y 1), sq_nonneg (y 0 + y 1 + Real.sqrt 2), hs,
      Real.sqrt_nonneg 2, hy]

theorem circle_optimum_unique (x : Fin 2 → ℝ) (h : IsGlobalOptimum circle_prog x) :
    x 0 = -(Real.sqrt 2) / 2 ∧ x 1 = -(Real.sqrt 2) / 2 := by
  have hs : Real.sqrt 2 ^ 2 = 2 := Real.sq_sqrt (by norm_num)
  obtain ⟨hfeas0, hmin⟩ := h
  have hlow := circle_optimum.2 x hfeas0
  rw [circle_feasible_iff] at hfeas0
  have hup := hmin (fun _ => -(Real.sqrt 2) / 2) circle_optimum.1
  rw [circle_totalCost, circle_totalCost] at hlow hup
  have hup2 : x 0 + x 1 ≤ -(Real.sqrt 2) / 2 + -(Real.sqrt 2) / 2 := hup
  have hlow2 : -(Real.sqrt 2) / 2 + -(Real.sqrt 2) / 2 ≤ x 0 + x 1 := hlow
  have hsum : x 0 + x 1 = -(Real.sqrt 2) := by linarith
  have hsq : (x 0 + x 1) ^ 2 = 2 := by rw [hsum, neg_sq]; exact hs
  have hdiff_le : (x 0 - x 1) ^ 2 ≤ 0 := by nlinarith [hfeas0, hsq]
  have hdiff : x 0 - x 1 = 0 :=
    sq_eq_zero_iff.mp (le_antisymm hdiff_le (sq_nonneg _))
  constructor
  · linarith
  · linarith

/-- C6: solving the program with nonlinear equality constraint
`x0^2 + x1^2 = 1`, linear cost `x0 + x1`, and initial guess `(-0.5, -0.5)`
returns `success = true` with the symmetric minimum `x0 = x1 = -sqrt 2 / 2`. -/
theorem circle_prog_solved (res : SolverResult 2) (h : SolveBehaves circle_prog res) :
    res.is_success = true ∧ res.solution 0 = -(Real.sqrt 2) / 2 ∧
      res.solution 1 = -(Real.sqrt 2) / 2 := by
  obtain ⟨hiff, hsound⟩ := h
  have hsucc : res.is_success = true := hiff.mpr ⟨_, circle_optimum⟩
  obtain ⟨h0, h1⟩ := circle_optimum_unique _ (hsound hsucc)
  exact ⟨hsucc, h0, h1⟩

/-- Witness for C6 at the result recorded for the `(-0.5, -0.5)` initial
guess (`success: True`, SNOPT converging to the symmetric minimum). -/
theorem circle_prog_solved_witness :
    (SolverResult.mk true (fun _ => -(Real.sqrt 2) / 2) "SNOPT/f2c" :
        SolverResult 2).is_success = true ∧
      (SolverResult.mk true (fun _ => -(Real.sqrt 2) / 2) "SNOPT/f2c" :
          SolverResult 2).solution 0 = -(Real.sqrt 2) / 2 ∧
      (SolverResult.mk true (fun _ => -(Real.sqrt 2) / 2) "SNOPT/f2c" :
          SolverResult 2).solution 1 = -(Real.sqrt 2) / 2 :=
  circle_prog_solved ⟨true, fun _ => -(Real.sqrt 2) / 2, "SNOPT/f2c"⟩
    ⟨⟨fun _ => ⟨_, circle_optimum⟩, fun _ => rfl⟩, fun _ => circle_optimum⟩

theorem lp_prog_ipopt_eq : lp_prog_ipopt = lp_prog := rfl

/-- C10: the automatically selected solver and an explicitly constructed
IPOPT solver, applied to the identically built LP `min x s.t. x ≥ 1`, both
return `success = true` with the same solution vector, `x = 1`. -/
theorem lp_solver_equivalence (res1 res2 : SolverResult 1)
    (h1 : SolveBehaves lp_prog res1) (h2 : SolveBehaves lp_prog_ipopt res2) :
    res1.is_success = true ∧ res2.is_success = true ∧
      res1.solution = res2.solution ∧ res1.solution = fun _ => 1 := by
  rw [lp_prog_ipopt_eq] at h2
  have hs1 : res1.is_success = true := h1.1.mpr ⟨_, lp_prog_optimum⟩
  have hs2 : res2.is_success = true := h2.1.mpr ⟨_, lp_prog_optimum⟩
  have e1 := lp_prog_optimum_unique _ (h1.2 hs1)
  have e2 := lp_prog_optimum_unique _ (h2.2 hs2)
  exact ⟨hs1, hs2, by rw [e1, e2], e1⟩

/-- Witness for C10 at the two results recorded in the notebook outputs
(`SNOPT/f2c` and `IPOPT`, both `success: True` with solution `[1.]`). -/
theorem lp_solver_equivalence_witness :
    (SolverResult.mk true (fun _ => 1) "SNOPT/f2c" : SolverResult 1).is_success = true ∧
      (SolverResult.mk true (fun _ => 1) "IPOPT" : SolverResult 1).is_success = true ∧
      (SolverResult.mk true (fun _ => 1) "SNOPT/f2c" : SolverResult 1).solution =
        (SolverResult.mk true (fun _ => 1) "IPOPT" : SolverResult 1).solution ∧
      (SolverResult.mk true (fun _ => 1) "SNOPT/f2c" : SolverResult 1).solution =
        fun _ => 1 :=
  lp_solver_equivalence ⟨true, fun _ => 1, "SNOPT/f2c"⟩ ⟨true, fun _ => 1, "IPOPT"⟩
    ⟨⟨fun _ => ⟨_, lp_prog_optimum⟩, fun _ => rfl⟩, fun _ => lp_prog_optimum⟩
    ⟨⟨fun _ => ⟨_, lp_prog_optimum⟩, fun _ => rfl⟩, fun _ => lp_prog_optimum⟩

theorem compute_forward_kinematics_snd (plant : MultibodyPlant) (q : List ℝ) :
    (compute_forward_kinematics plant q).2 = plant := rfl

theorem compute_forward_kinematics_ok (plant : MultibodyPlant) (q : List ℝ)
    (h : q.length = plant.numPositions) :
    (compute_forward_kinematics plant q).1 =
      Except.ok (plant.CalcRelativeTransform
        ⟨fun i => q.get ⟨i, by rw [h]; exact i.isLt⟩⟩) := by
  show (match plant.SetPositions plant.CreateDefaultContext q with
    | Except.error e => Except.error e
    | Except.ok c => Except.ok (plant.CalcRelativeTransform c)) = _
  unfold MultibodyPlant.SetPositions
  rw [dif_pos h]

theorem compute_forward_kinematics_err (plant : MultibodyPlant) (q : List ℝ)
    (h : q.length ≠ plant.numPositions) :
    (compute_forward_kinematics plant q).1 = Except.error KinError.DimensionError := by
  show (match plant.SetPositions plant.CreateDefaultContext q with
    | Except.error e => Except.error e
    | Except.ok c => Except.ok (plant.CalcRelativeTransform c)) = _
  unfold MultibodyPlant.SetPositions
  rw [dif_neg h]

/-- C2: `compute_forward_kinematics` is a pure, deterministic function of the
plant and the configuration: the plant comes back unchanged, and evaluating a
second time with the same arguments (through the plant the first call
returned) produces the identical transform matrix. -/
theorem compute_forward_kinematics_pure (plant : MultibodyPlant) (q : List ℝ)
    (h : q.length = plant.numPositions) :
    (compute_forward_kinematics plant q).2 = plant ∧
      ∃ M, (compute_forward_kinematics plant q).1 = Except.ok M ∧
        (compute_forward_kinematics (compute_forward_kinematics plant q).2 q).1 =
          Except.ok M := by
  refine ⟨rfl, ?_⟩
  rw [compute_forward_kinematics_snd]
  exact ⟨_, compute_forward_kinematics_ok plant q h, compute_forward_kinematics_ok plant q h⟩

/-- Witness for C2 at the demo plant and the all-zero seven-vector. -/
theorem compute_forward_kinematics_pure_witness :
    (List.replicate 7 (0 : ℝ)).length = demoPlant.numPositions ∧
      ((compute_forward_kinematics demoPlant (List.replicate 7 (0 : ℝ))).2 = demoPlant ∧
        ∃ M, (compute_forward_kinematics demoPlant (List.replicate 7 (0 : ℝ))).1 =
            Except.ok M ∧
          (compute_forward_kinematics
              (compute_forward_kinematics demoPlant (List.replicate 7 (0 : ℝ))).2
              (List.replicate 7 (0 : ℝ))).1 = Except.ok M) :=
  ⟨rfl, compute_forward_kinematics_pure demoPlant (List.replicate 7 (0 : ℝ)) rfl⟩

/-- C8: for a well-formed finalized model, forward kinematics at a
configuration vector of the correct length never fails; at a vector of any
other length it always fails with `DimensionError`. -/
theorem compute_forward_kinematics_dimension (plant : MultibodyPlant) (q : List ℝ) :
    (q.length = plant.numPositions →
      (compute_forward_kinematics plant q).1.isOk = true) ∧
    (q.length ≠ plant.numPositions →
      (compute_forward_kinematics plant q).1 = Except.error KinError.DimensionError) := by
  constructor
  · intro h
    rw [compute_forward_kinematics_ok plant q h]
    rfl
  · intro h
    exact compute_forward_kinematics_err plant q h

/-- Witness for C8 at the demo plant: a length-7 vector succeeds and the
empty vector fails with `DimensionError`. -/
theorem compute_forward_kinematics_dimension_witness :
    (compute_forward_kinematics demoPlant (List.replicate 7 (0 : ℝ))).1.isOk = true ∧
      (compute_forward_kinematics demoPlant ([] : List ℝ)).1 =
        Except.error KinError.DimensionError :=
  ⟨(compute_forward_kinematics_dimension demoPlant (List.replicate 7 (0 : ℝ))).1 rfl,
    (compute_forward_kinematics_dimension demoPlant ([] : List ℝ)).2 (by decide)⟩

/-- C9: after the base frame is welded to the world frame and the model is
finalized, the base has zero degrees of freedom relative to world, the plant
is finalized, and the subsequent operations — forward-kinematics evaluation
and IK problem construction (solving consumes only the resulting program) —
leave the plant unchanged. -/
theorem plant_welded_finalized_immutable (d : RobotDescription) :
    (setup_plant d).baseDofs = 0 ∧ (setup_plant d).finalized = true ∧
      (∀ q : List ℝ, (compute_forward_kinematics (setup_plant d) q).2 = setup_plant d) ∧
      (∀ (target : Fin 3 → ℝ) (tol : ℝ),
        (build_ik_problem (setup_plant d) target tol).plant = setup_plant d) :=
  ⟨rfl, rfl, fun _ => rfl, fun _ _ => rfl⟩

theorem worldPoint_zero (plant : MultibodyPlant) (q : Fin plant.numPositions → ℝ) :
    worldPoint plant q (fun _ => 0) = fkTranslation plant q := by
  funext i
  unfold worldPoint fkTranslation
  simp

theorem ik_prog_constraints (plant : MultibodyPlant) (target : Fin 3 → ℝ) (tol : ℝ) :
    (build_ik_problem plant target tol).prog.constraints =
      [fun q => PositionConstraintHolds plant
        ⟨fun _ => 0, fun i => target i - tol, fun i => target i + tol⟩ q] := rfl

theorem ik_prog_totalCost (plant : MultibodyPlant) (target : Fin 3 → ℝ) (tol : ℝ)
    (x : Fin plant.numPositions → ℝ) :
    totalCost (build_ik_problem plant target tol).prog x = 0 := rfl

theorem ik_feasible_iff (plant : MultibodyPlant) (target : Fin 3 → ℝ) (tol : ℝ)
    (q : Fin plant.numPositions → ℝ) :
    Feasible (build_ik_problem plant target tol).prog q ↔
      ∀ i : Fin 3, |fkTranslation plant q i - target i| ≤ tol := by
  have hwp := worldPoint_zero plant q
  constructor
  · intro hf i
    have hc := hf (fun q => PositionConstraintHolds plant
        ⟨fun _ => 0, fun i => target i - tol, fun i => target i + tol⟩ q)
      (by rw [ik_prog_constraints]; exact List.mem_singleton.mpr rfl)
    obtain ⟨hl, hu⟩ := hc i
    rw [hwp] at hl hu
    have hl2 : target i - tol ≤ fkTranslation plant q i := hl
    have hu2 : fkTranslation plant q i ≤ target i + tol := hu
    rw [abs_sub_le_iff]
    constructor
    · linarith
    · linarith
  · intro hb c hc
    rw [ik_prog_constraints, List.mem_singleton] at hc
    subst hc
    intro i
    have := hb i
    rw [abs_sub_le_iff] at this
    constructor
    · show target i - tol ≤ worldPoint plant q (fun _ => 0) i
      rw [hwp]
      linarith [this.2]
    · show worldPoint plant q (fun _ => 0) i ≤ target i + tol
      rw [hwp]
      linarith [this.1]

/-- C7: for every target position and tolerance `tol ≥ 0`, the IK problem
builder produces a program over the joint angles whose single position
constraint has body-frame query point `p_BQ = 0` and box bounds
`[target - tol, target + tol]`; its feasibility at a configuration says
exactly that the end-effector world position is within `tol` of the target
componentwise. -/
theorem build_ik_problem_shape (plant : MultibodyPlant) (target : Fin 3 → ℝ)
    (tol : ℝ) (_htol : 0 ≤ tol) :
    (build_ik_problem plant target tol).posConstraints =
      [⟨fun _ => 0, fun i => target i - tol, fun i => target i + tol⟩] ∧
    ∀ q : Fin plant.numPositions → ℝ,
      Feasible (build_ik_problem plant target tol).prog q ↔
        ∀ i : Fin 3, |fkTranslation plant q i - target i| ≤ tol :=
  ⟨rfl, fun q => ik_feasible_iff plant target tol q⟩

/-- Witness for C7 at the demo plant, zero target and tolerance 1. -/
theorem build_ik_problem_shape_witness :
    (0 : ℝ) ≤ 1 ∧
      (build_ik_problem demoPlant (fun _ => 0) 1).posConstraints =
        [⟨fun _ => 0, fun i => (fun _ => (0 : ℝ)) i - 1, fun i => (fun _ => (0 : ℝ)) i + 1⟩] :=
  ⟨by norm_num, (build_ik_problem_shape demoPlant (fun _ => 0) 1 (by norm_num)).1⟩

theorem ik_self_optimum (plant : MultibodyPlant) (q : Fin plant.numPositions → ℝ)
    (tol : ℝ) (htol : 0 ≤ tol) :
    IsGlobalOptimum (build_ik_problem plant (fkTranslation plant q) tol).prog q := by
  constructor
  · rw [ik_feasible_iff]
    intro i
    simp [htol]
  · intro y _
    rw [ik_prog_totalCost, ik_prog_totalCost]

/-- C1: round-trip — for every configuration `q` and tolerance `tol ≥ 0`,
building the IK problem whose target is the forward-kinematics translation at
`q` and solving it succeeds (the problem is feasible, `q` itself satisfying
it), and the solved configuration's forward-kinematics position lies within
the tolerance band of the target, componentwise. -/
theorem ik_round_trip (plant : MultibodyPlant) (q : Fin plant.numPositions → ℝ)
    (tol : ℝ) (htol : 0 ≤ tol) (res : SolverResult plant.numPositions)
    (h : SolveBehaves (build_ik_problem plant (fkTranslation plant q) tol).prog res) :
    res.is_success = true ∧
      ∀ i : Fin 3, |fkTranslation plant res.solution i - fkTranslation plant q i| ≤ tol := by
  obtain ⟨hiff, hsound⟩ := h
  have hsucc : res.is_success = true := hiff.mpr ⟨q, ik_self_optimum plant q tol htol⟩
  have hfeas := (hsound hsucc).1
  rw [ik_feasible_iff] at hfeas
  exact ⟨hsucc, hfeas⟩

/-- Witness for C1 at the demo plant, the all-zero configuration, tolerance 1
and the solver result returning that very configuration. -/
theorem ik_round_trip_witness :
    (0 : ℝ) ≤ 1 ∧
      (SolverResult.mk true (fun _ => 0) "SNOPT/f2c" :
        SolverResult demoPlant.numPositions).is_success = true :=
  ⟨by norm_num,
    (ik_round_trip demoPlant (fun _ => 0) 1 (by norm_num)
        ⟨true, fun _ => 0, "SNOPT/f2c"⟩
        ⟨⟨fun _ => ⟨_, ik_self_optimum demoPlant (fun _ => 0) 1 (by norm_num)⟩,
            fun _ => rfl⟩,
          fun _ => ik_self_optimum demoPlant (fun _ => 0) 1 (by norm_num)⟩).1⟩

end DrakeTutorial
